import Mathlib

/-!
Verification of the tsuru webhook dispatch service
(`service/webhook.go`, here `src/router/routerv2.go`).

The Go code is shallowly embedded: HTTP headers become association lists,
effectful collaborators (event store, webhook storage, JSON marshalling,
`http.NewRequest`, the HTTP client) become explicit function-valued
environments, and metric side effects become an explicit trace of metric
operations returned alongside each result.
-/

set_option autoImplicit false

namespace Webhook

/-- The Go type `http.Header` (`map[string][]string`), modelled as an
association list from header name to values.  All accesses in the embedded
code use already-canonical header names, so canonicalization is the
identity. -/
abbrev Header := List (String × List String)

/-- Models `http.Header.Set`: replace the entry for key `k` by the single
value `v`, appending a new entry when the key is absent. -/
def headerSet (h : Header) (k v : String) : Header :=
  match h with
  | [] => [(k, [v])]
  | p :: ps => if p.1 == k then (k, [v]) :: ps else p :: headerSet ps k v

/-- Models `http.Header.Get`: first value stored for key `k`, `""` when
absent. -/
def headerGet (h : Header) (k : String) : String :=
  match h with
  | [] => ""
  | p :: ps =>
    if p.1 == k then
      match p.2 with
      | v :: _ => v
      | [] => ""
    else headerGet ps k

/-- An event target (`event.Target`): a type and a value. -/
structure Target where
  type : String
  value : String
deriving DecidableEq

/-- One entry of the `ExtraTargets` sequence, wrapping a target. -/
structure ExtraTarget where
  target : Target
deriving DecidableEq

/-- The `Kind` of an event: a kind type and a kind name. -/
structure EventKind where
  type : String
  name : String
deriving DecidableEq

/-- The parts of `event.Event` read by the webhook service: primary target,
ordered extra targets, kind, and the error string (`""` means success). -/
structure Event where
  target : Target
  extraTargets : List ExtraTarget
  kind : EventKind
  error : String
deriving DecidableEq

/-- The `eventTypes.WebHook` record: the fields used by the dispatch and
CRUD code. -/
structure WebHook where
  Name : String
  URL : String
  Method : String
  Headers : Header
  Body : String
  Insecure : Bool
deriving DecidableEq

/-- The `eventTypes.WebHookEventFilter` record as assembled by
`handleEvent`. -/
structure WebHookEventFilter where
  TargetTypes : List String
  TargetValues : List String
  KindTypes : List String
  KindNames : List String
deriving DecidableEq

/-- The variable `defaultUserAgent = "tsuru-webhook-client/1.0"`. -/
def defaultUserAgent : String := "tsuru-webhook-client/1.0"

/-- The extra-targets loop of `handleEvent`: append the type and value of
each extra target to the filter. -/
def addExtraTargets (filter : WebHookEventFilter) :
    List ExtraTarget → WebHookEventFilter
  | [] => filter
  | t :: ts =>
      addExtraTargets
        { filter with
            TargetTypes := filter.TargetTypes ++ [t.target.type]
            TargetValues := filter.TargetValues ++ [t.target.value] } ts

/-- The filter construction of `handleEvent` (lines 153-162): the primary
target and kind seed the filter, then each extra target is appended. -/
def buildFilter (evt : Event) : WebHookEventFilter :=
  addExtraTargets
    { TargetTypes := [evt.target.type]
      TargetValues := [evt.target.value]
      KindTypes := [evt.kind.type]
      KindNames := [evt.kind.name] }
    evt.extraTargets

/-- Function `webhookBody` (lines 176-191).  `jsonMarshal` models
`json.Marshal` on the event (it may fail).  Returns the request body
(`none` = nil reader) and the headers of the hook after the in-place
`Content-Type` mutation. -/
def webhookBody (jsonMarshal : Event → Except String String)
    (hook : WebHook) (evt : Event) : Except String (Option String × Header) :=
  if hook.Body ≠ "" then
    Except.ok (some hook.Body, hook.Headers)
  else if hook.Method ≠ "POST" ∧ hook.Method ≠ "PUT" ∧ hook.Method ≠ "PATCH" then
    Except.ok (none, hook.Headers)
  else
    let headers := headerSet hook.Headers "Content-Type" "application/json"
    match jsonMarshal evt with
    | Except.error e => Except.error e
    | Except.ok data => Except.ok (some data, headers)

/-- Models `strings.ToUpper` (ASCII methods only are relevant here):
uppercase every character. -/
def toUpperAscii (s : String) : String := ⟨s.data.map Char.toUpper⟩

/-- Method normalization at the top of `doHook` (lines 200-203):
uppercase, then default to POST when empty. -/
def normalizeMethod (m : String) : String :=
  let m := toUpperAscii m
  if m == "" then "POST" else m

/-- The outgoing `http.Request` as built by `doHook`. -/
structure Request where
  Method : String
  URL : String
  Body : Option String
  Headers : Header
deriving DecidableEq

/-- An HTTP response: status code and (fully read) body. -/
structure HttpResponse where
  StatusCode : Int
  Body : String
deriving DecidableEq

/-- Outcome of `client.Do`: a transport-level error or a response. -/
inductive HttpResult where
  | transportError (e : String)
  | response (rsp : HttpResponse)
deriving DecidableEq

/-- One metric side effect of `doHook`: the `webhooksTotal` counter, the
`webhooksError` counter, or a `webhooksLatency` observation. -/
inductive Metric where
  | total
  | error
  | latency
deriving DecidableEq

/-- Environment of `doHook`: `json.Marshal` on events, the fallible
`http.NewRequest` (error or success for a method/URL/body triple), and the
`Do` call of the HTTP client. -/
structure DoHookEnv where
  jsonMarshal : Event → Except String String
  newRequestErr : String → String → Option String → Option String
  httpDo : Request → HttpResult

/-- Status classification of `doHook` (lines 227-230): statuses outside
[200,400) produce the error built from the status code and response body. -/
def classifyResponse (rsp : HttpResponse) : Option String :=
  if rsp.StatusCode < 200 ∨ rsp.StatusCode ≥ 400 then
    some ("invalid status code calling hook: " ++ toString rsp.StatusCode
      ++ ": " ++ rsp.Body)
  else
    none

/-- Request assembly of `doHook` (lines 208-215): the request carries the
hook method, URL, the computed body and the hook headers; a default
`User-Agent` is injected only when none is present. -/
def buildRequest (hook : WebHook) (body : Option String) (headers : Header) :
    Request :=
  let req0 : Request :=
    { Method := hook.Method, URL := hook.URL, Body := body, Headers := headers }
  if headerGet req0.Headers "User-Agent" == "" then
    { req0 with Headers := headerSet req0.Headers "User-Agent" defaultUserAgent }
  else req0

/-- Body of `doHook` after the method normalization (lines 204-231).  Returns the
error result, the trace of metric operations (the deferred block increments
`total` always and `error` exactly on a non-nil error; latency is observed
around `client.Do`), and the request handed to the client when one was. -/
def doHookAfterNorm (env : DoHookEnv) (hook : WebHook) (evt : Event) :
    Option String × List Metric × Option Request :=
  match webhookBody env.jsonMarshal hook evt with
  | Except.error e => (some e, [Metric.total, Metric.error], none)
  | Except.ok (body, headers) =>
    match env.newRequestErr hook.Method hook.URL body with
    | some e => (some e, [Metric.total, Metric.error], none)
    | none =>
      let req := buildRequest hook body headers
      match env.httpDo req with
      | HttpResult.transportError e =>
          (some e, [Metric.latency, Metric.total, Metric.error], some req)
      | HttpResult.response rsp =>
        match classifyResponse rsp with
        | some e => (some e, [Metric.latency, Metric.total, Metric.error], some req)
        | none => (none, [Metric.latency, Metric.total], some req)

/-- Function `doHook` (lines 193-232): normalize the method, then run the
rest of the body. -/
def doHook (env : DoHookEnv) (hook : WebHook) (evt : Event) :
    Option String × List Metric × Option Request :=
  doHookAfterNorm env { hook with Method := normalizeMethod hook.Method } evt

/-- One observable step of `handleEvent`: the event fetch, the store filter
query (with its `successOnly` flag), one `doHook` attempt, or a logged
delivery error. -/
inductive TraceEntry where
  | getByID (id : String)
  | findByEvent (filter : WebHookEventFilter) (successOnly : Bool)
  | doHookCall (hookName : String)
  | logError (msg : String)
deriving DecidableEq

/-- Environment of `handleEvent`: `event.GetByID`, the `FindByEvent` query
of the storage, and the outcome of `doHook` for each hook. -/
structure HandleEnv where
  getByID : String → Except String Event
  findByEvent : WebHookEventFilter → Bool → Except String (List WebHook)
  doHookResult : WebHook → Event → Option String

/-- The delivery loop of `handleEvent` (lines 167-172): attempt every hook
in order, logging (never propagating) failures. -/
def deliveryLoop (env : HandleEnv) (evt : Event) :
    List WebHook → List TraceEntry
  | [] => []
  | h :: hs =>
    TraceEntry.doHookCall h.Name ::
      ((match env.doHookResult h evt with
        | some e =>
            [TraceEntry.logError
              ("[webhooks] error calling webhook " ++ h.Name ++ ": " ++ e)]
        | none => []) ++ deliveryLoop env evt hs)

/-- Function `handleEvent` (lines 148-174): fetch the event, build the filter, query
the store with `successOnly = (evt.Error == "")`, then deliver to every
matched hook.  Returns the error result and the trace of observable steps. -/
def handleEvent (env : HandleEnv) (evtID : String) :
    Option String × List TraceEntry :=
  match env.getByID evtID with
  | Except.error e => (some e, [TraceEntry.getByID evtID])
  | Except.ok evt =>
    let filter := buildFilter evt
    let so := evt.error == ""
    match env.findByEvent filter so with
    | Except.error e =>
        (some e, [TraceEntry.getByID evtID, TraceEntry.findByEvent filter so])
    | Except.ok hooks =>
        (none,
          TraceEntry.getByID evtID :: TraceEntry.findByEvent filter so ::
            deliveryLoop env evt hooks)

/-- The names of the hooks `handleEvent` attempted, in order. -/
def doHookCalls (tr : List TraceEntry) : List String :=
  tr.filterMap (fun e =>
    match e with
    | TraceEntry.doHookCall n => some n
    | _ => none)

/-- Function `validateURL` (lines 234-245).  `urlParseErr` models failure
of `url.Parse`: `none` when the URL parses, `some e` with the parse error
text. -/
def validateURL (urlParseErr : String → Option String) (u : String) :
    Option String :=
  if u == "" then some "webhook url must not be empty"
  else
    match urlParseErr u with
    | some e => some ("webhook url is not valid: " ++ e)
    | none => none

/-- Environment of `Create`.  The field `ensureValidateName` is Modelled
from the spec: `validation.EnsureValidateName` (the platform name-syntax
rule, whose source is not part of this excerpt) is abstracted as returning
an error exactly when the name fails the rule.  `urlParseErr` models
`url.Parse`, and `insertErr` the `Insert` call of the storage. -/
structure CreateEnv where
  ensureValidateName : String → Option String
  urlParseErr : String → Option String
  insertErr : WebHook → Option String

/-- Function `Create` (lines 247-260).  Returns the error result and
whether the `Insert` call of the storage was invoked. -/
def Create (env : CreateEnv) (w : WebHook) : Option String × Bool :=
  if w.Name == "" then (some "webhook name must not be empty", false)
  else
    match env.ensureValidateName w.Name with
    | some e => (some e, false)
    | none =>
      match validateURL env.urlParseErr w.URL with
      | some e => (some e, false)
      | none => (env.insertErr w, true)

/-- The channel state of `webHookService` visible to `Shutdown`: whether
`quitCh` and `doneCh` have been closed. -/
structure ServiceState where
  quitClosed : Bool
  doneClosed : Bool
deriving DecidableEq

/-- Function `Shutdown` (lines 113-122): close `quitCh`, then select
between the completion signal of the worker and the expiry of the caller
context; `doneFirst` records which select branch fires.  `ctxErr` is the
value of `ctx.Err()`. -/
def Shutdown (s : ServiceState) (ctxErr : String) (doneFirst : Bool) :
    ServiceState × Option String :=
  let s' := { s with quitClosed := true }
  if doneFirst then (s', none) else (s', some ctxErr)

/-! ### Sample fixtures used by witness theorems -/

/-- A sample successful event with one extra target. -/
def sampleEvent : Event :=
  { target := { type := "app", value := "myapp" }
    extraTargets := [{ target := { type := "team", value := "myteam" } }]
    kind := { type := "permission", name := "app.deploy" }
    error := "" }

/-- A sample hook with no literal body. -/
def sampleHook : WebHook :=
  { Name := "hook1", URL := "http://h1.example.com", Method := "POST"
    Headers := [], Body := "", Insecure := false }

/-- A sample hook carrying a literal body and a custom header. -/
def sampleLiteralHook : WebHook :=
  { Name := "hook2", URL := "http://h2.example.com", Method := "GET"
    Headers := [("X-Token", ["abc"])], Body := "payload", Insecure := false }

/-- A sample delivery environment where every stage succeeds. -/
def sampleEnv : DoHookEnv :=
  { jsonMarshal := fun _ => Except.ok "serialized-event"
    newRequestErr := fun _ _ _ => none
    httpDo := fun _ => HttpResult.response { StatusCode := 200, Body := "ok" } }

/-- A sample handler environment where lookups succeed and no hook matches. -/
def sampleHandleEnv : HandleEnv :=
  { getByID := fun _ => Except.ok sampleEvent
    findByEvent := fun _ _ => Except.ok []
    doHookResult := fun _ _ => none }

/-- A sample handler environment where every delivery attempt fails. -/
def sampleFailHandleEnv : HandleEnv :=
  { getByID := fun _ => Except.ok sampleEvent
    findByEvent := fun _ _ => Except.ok [sampleHook, sampleLiteralHook]
    doHookResult := fun _ _ => some "connection refused" }

/-! ### Helper lemmas -/

theorem headerGet_headerSet_same (h : Header) (k v : String) :
    headerGet (headerSet h k v) k = v := by
  induction h with
  | nil => simp [headerSet, headerGet]
  | cons p ps ih =>
    by_cases hp : (p.1 == k) = true
    · simp [headerSet, hp, headerGet]
    · simp [headerSet, hp, headerGet, ih]

theorem headerGet_headerSet_of_ne (h : Header) (k v k2 : String)
    (hne : k2 ≠ k) : headerGet (headerSet h k v) k2 = headerGet h k2 := by
  have h2 : k ≠ k2 := Ne.symm hne
  induction h with
  | nil => simp [headerSet, headerGet, beq_iff_eq, h2]
  | cons p ps ih =>
    by_cases hp : (p.1 == k) = true
    · have hp1 : p.1 = k := by simpa [beq_iff_eq] using hp
      simp [headerSet, hp, headerGet, beq_iff_eq, h2, hp1]
    · simp [headerSet, hp, headerGet, ih]

theorem addExtraTargets_eq (ts : List ExtraTarget) (f : WebHookEventFilter) :
    addExtraTargets f ts =
      { f with
          TargetTypes := f.TargetTypes ++ ts.map (fun t => t.target.type)
          TargetValues := f.TargetValues ++ ts.map (fun t => t.target.value) } := by
  induction ts generalizing f with
  | nil => simp [addExtraTargets]
  | cons t ts ih => simp [addExtraTargets, ih]

theorem buildFilter_eq (evt : Event) :
    buildFilter evt =
      { TargetTypes :=
          evt.target.type :: evt.extraTargets.map (fun t => t.target.type)
        TargetValues :=
          evt.target.value :: evt.extraTargets.map (fun t => t.target.value)
        KindTypes := [evt.kind.type]
        KindNames := [evt.kind.name] } := by
  simp [buildFilter, addExtraTargets_eq]

theorem doHookCalls_deliveryLoop (env : HandleEnv) (evt : Event)
    (hooks : List WebHook) :
    doHookCalls (deliveryLoop env evt hooks) = hooks.map (fun h => h.Name) := by
  induction hooks with
  | nil => rfl
  | cons h hs ih =>
    cases hdr : env.doHookResult h evt <;>
      simp [deliveryLoop, doHookCalls, hdr] at ih ⊢ <;> exact ih

theorem findByEvent_not_mem_deliveryLoop (env : HandleEnv) (evt : Event)
    (hooks : List WebHook) (f : WebHookEventFilter) (so : Bool) :
    TraceEntry.findByEvent f so ∉ deliveryLoop env evt hooks := by
  induction hooks with
  | nil => simp [deliveryLoop]
  | cons h hs ih =>
    cases hdr : env.doHookResult h evt <;> simp [deliveryLoop, hdr, ih]

/-! ### Claims -/

/-- C1: for every event with k extra targets, the filter built by
`handleEvent` has exactly k+1 entries in `TargetTypes` and `TargetValues`,
entry 0 being the primary target and entry i+1 the i-th extra target in
order, while `KindTypes` and `KindNames` each hold exactly the kind of the
event. -/
theorem C1_filter_shape (evt : Event) :
    (buildFilter evt).TargetTypes.length = evt.extraTargets.length + 1 ∧
    (buildFilter evt).TargetValues.length = evt.extraTargets.length + 1 ∧
    (buildFilter evt).TargetTypes[0]? = some evt.target.type ∧
    (buildFilter evt).TargetValues[0]? = some evt.target.value ∧
    (∀ i : Nat,
      (buildFilter evt).TargetTypes[i + 1]? =
        evt.extraTargets[i]?.map (fun t => t.target.type)) ∧
    (∀ i : Nat,
      (buildFilter evt).TargetValues[i + 1]? =
        evt.extraTargets[i]?.map (fun t => t.target.value)) ∧
    (buildFilter evt).KindTypes = [evt.kind.type] ∧
    (buildFilter evt).KindNames = [evt.kind.name] := by
  rw [buildFilter_eq]
  refine ⟨by simp, by simp, by simp, by simp, ?_, ?_, rfl, rfl⟩ <;>
    intro i <;> simp [List.getElem?_map]

/-- C6: `handleEvent` passes `successOnly = (evt.Error == "")` to the
store query: the trace holds the query with exactly that flag, every filter
query in the trace carries that flag, and the flag is true iff the error
field of the event is empty. -/
theorem C6_successOnly (env : HandleEnv) (evtID : String) (evt : Event)
    (h : env.getByID evtID = Except.ok evt) :
    (TraceEntry.findByEvent (buildFilter evt) (evt.error == "")
        ∈ (handleEvent env evtID).2) ∧
    (∀ f so, TraceEntry.findByEvent f so ∈ (handleEvent env evtID).2 →
        so = (evt.error == "")) ∧
    ((evt.error == "") = true ↔ evt.error = "") := by
  refine ⟨?_, ?_, by simp⟩
  · simp only [handleEvent, h]
    cases hf : env.findByEvent (buildFilter evt) (evt.error == "") with
    | error e => simp
    | ok hooks => simp
  · intro f so hmem
    simp only [handleEvent, h] at hmem
    cases hf : env.findByEvent (buildFilter evt) (evt.error == "") with
    | error e =>
      rw [hf] at hmem
      simp at hmem
      exact hmem.2
    | ok hooks =>
      rw [hf] at hmem
      simp at hmem
      rcases hmem with ⟨_, h2⟩ | h2
      · exact h2
      · exact absurd h2 (findByEvent_not_mem_deliveryLoop env evt hooks f so)

/-- Witness for C6 at a concrete environment: the store query of the
sample event (which succeeded, so the flag is true) appears in the trace. -/
theorem C6_successOnly_witness :
    TraceEntry.findByEvent (buildFilter sampleEvent) (sampleEvent.error == "")
      ∈ (handleEvent sampleHandleEnv "evt1").2 :=
  (C6_successOnly sampleHandleEnv "evt1" sampleEvent rfl).1

/-- C8: `handleEvent` returns the lookup error and attempts no delivery
when the event fetch or the store query fails; when both succeed it
attempts `doHook` on every matched hook in order — delivery failures
notwithstanding — and returns nil. -/
theorem C8_error_flow (env : HandleEnv) (evtID : String) :
    (∀ e, env.getByID evtID = Except.error e →
        (handleEvent env evtID).1 = some e ∧
        doHookCalls (handleEvent env evtID).2 = []) ∧
    (∀ evt e, env.getByID evtID = Except.ok evt →
        env.findByEvent (buildFilter evt) (evt.error == "") = Except.error e →
        (handleEvent env evtID).1 = some e ∧
        doHookCalls (handleEvent env evtID).2 = []) ∧
    (∀ evt hooks, env.getByID evtID = Except.ok evt →
        env.findByEvent (buildFilter evt) (evt.error == "") = Except.ok hooks →
        (handleEvent env evtID).1 = none ∧
        doHookCalls (handleEvent env evtID).2 =
          hooks.map (fun h => h.Name)) := by
  refine ⟨?_, ?_, ?_⟩
  · intro e he
    simp [handleEvent, he, doHookCalls]
  · intro evt e hok hf
    simp [handleEvent, hok, hf, doHookCalls]
  · intro evt hooks hok hf
    simp [handleEvent, hok, hf, doHookCalls, ← doHookCalls_deliveryLoop
      env evt hooks]

/-- Witness for C8 at a concrete environment in which every delivery
fails: both hooks are still attempted, in order, and the result is nil. -/
theorem C8_error_flow_witness :
    (handleEvent sampleFailHandleEnv "evt1").1 = none ∧
    doHookCalls (handleEvent sampleFailHandleEnv "evt1").2 =
      ["hook1", "hook2"] := by
  have h := (C8_error_flow sampleFailHandleEnv "evt1").2.2 sampleEvent
    [sampleHook, sampleLiteralHook] rfl rfl
  exact ⟨h.1, h.2⟩

/-- C9: `Shutdown` closes the quit signal, returns nil when the completion
signal is selected and the context error otherwise, and leaves the
completion signal of the worker untouched. -/
theorem C9_shutdown (s : ServiceState) (ctxErr : String) (doneFirst : Bool) :
    (Shutdown s ctxErr doneFirst).1.quitClosed = true ∧
    (Shutdown s ctxErr doneFirst).2 =
      (if doneFirst then none else some ctxErr) ∧
    (Shutdown s ctxErr doneFirst).1.doneClosed = s.doneClosed := by
  cases doneFirst <;> simp [Shutdown]

/-- C4: `Create` rejects an empty name, a name failing the name-syntax
rule, an empty URL and an unparsable URL without invoking the store
insert, and invokes the insert exactly when all four validations pass. -/
theorem C4_create_validation (env : CreateEnv) (w : WebHook) :
    (w.Name = "" →
        Create env w = (some "webhook name must not be empty", false)) ∧
    (∀ e, env.ensureValidateName w.Name = some e →
        (Create env w).2 = false ∧ (Create env w).1.isSome = true) ∧
    (w.URL = "" →
        (Create env w).2 = false ∧ (Create env w).1.isSome = true) ∧
    (∀ e, env.urlParseErr w.URL = some e →
        (Create env w).2 = false ∧ (Create env w).1.isSome = true) ∧
    ((Create env w).2 = true ↔
        w.Name ≠ "" ∧ env.ensureValidateName w.Name = none ∧
        w.URL ≠ "" ∧ env.urlParseErr w.URL = none) := by
  unfold Create validateURL
  by_cases hn : w.Name = ""
  · simp [hn]
  · cases hv : env.ensureValidateName w.Name with
    | some e => simp [hn, hv]
    | none =>
      by_cases hu : w.URL = ""
      · simp [hn, hv, hu]
      · cases hp : env.urlParseErr w.URL with
        | some e => simp [hn, hv, hu, hp]
        | none => simp [hn, hv, hu, hp]

/-- Witness for C4 at concrete inputs: an empty name is rejected without
insert, and a fully valid hook reaches the insert. -/
theorem C4_create_validation_witness :
    Create
        { ensureValidateName := fun _ => none
          urlParseErr := fun _ => none
          insertErr := fun _ => none }
        { sampleHook with Name := "" } =
      (some "webhook name must not be empty", false) ∧
    (Create
        { ensureValidateName := fun _ => none
          urlParseErr := fun _ => none
          insertErr := fun _ => none }
        sampleHook).2 = true := by
  constructor
  · exact (C4_create_validation
      { ensureValidateName := fun _ => none
        urlParseErr := fun _ => none
        insertErr := fun _ => none }
      { sampleHook with Name := "" }).1 rfl
  · exact (C4_create_validation
      { ensureValidateName := fun _ => none
        urlParseErr := fun _ => none
        insertErr := fun _ => none }
      sampleHook).2.2.2.2.mpr ⟨by decide, rfl, by decide, rfl⟩

/-- C2: `webhookBody` uses a non-empty literal `Body` verbatim regardless
of method; with no literal body it serializes the event as JSON and sets
`Content-Type: application/json` exactly for POST, PUT and PATCH, and
produces no body for every other method. -/
theorem C2_body_selection (jm : Event → Except String String)
    (hook : WebHook) (evt : Event) :
    (hook.Body ≠ "" →
        webhookBody jm hook evt = Except.ok (some hook.Body, hook.Headers)) ∧
    (hook.Body = "" →
        (hook.Method = "POST" ∨ hook.Method = "PUT" ∨ hook.Method = "PATCH") →
        webhookBody jm hook evt =
          (match jm evt with
           | Except.error e => Except.error e
           | Except.ok data =>
               Except.ok (some data,
                 headerSet hook.Headers "Content-Type" "application/json")) ∧
        headerGet (headerSet hook.Headers "Content-Type" "application/json")
            "Content-Type" = "application/json") ∧
    (hook.Body = "" → hook.Method ≠ "POST" → hook.Method ≠ "PUT" →
        hook.Method ≠ "PATCH" →
        webhookBody jm hook evt = Except.ok (none, hook.Headers)) := by
  refine ⟨?_, ?_, ?_⟩
  · intro hb
    simp [webhookBody, hb]
  · intro hb hm
    have hcond :
        ¬(hook.Method ≠ "POST" ∧ hook.Method ≠ "PUT" ∧
          hook.Method ≠ "PATCH") := by
      rcases hm with h | h | h <;> simp [h]
    refine ⟨?_, headerGet_headerSet_same _ _ _⟩
    cases hjm : jm evt <;> simp [webhookBody, hb, hcond, hjm]
  · intro hb h1 h2 h3
    simp [webhookBody, hb, h1, h2, h3]

/-- Witness for C2 at concrete inputs: a literal body is used verbatim
under method GET, a bodiless POST serializes the event with the JSON
content type, and a bodiless GET sends no body. -/
theorem C2_body_selection_witness :
    webhookBody (fun _ => Except.ok "serialized-event") sampleLiteralHook
        sampleEvent =
      Except.ok (some "payload", sampleLiteralHook.Headers) ∧
    webhookBody (fun _ => Except.ok "serialized-event") sampleHook
        sampleEvent =
      Except.ok (some "serialized-event",
        headerSet sampleHook.Headers "Content-Type" "application/json") ∧
    webhookBody (fun _ => Except.ok "serialized-event")
        { sampleHook with Method := "GET" } sampleEvent =
      Except.ok (none, sampleHook.Headers) := by
  refine ⟨?_, ?_, ?_⟩
  · exact (C2_body_selection (fun _ => Except.ok "serialized-event")
      sampleLiteralHook sampleEvent).1 (by decide)
  · exact ((C2_body_selection (fun _ => Except.ok "serialized-event")
      sampleHook sampleEvent).2.1 rfl (Or.inl rfl)).1
  · exact (C2_body_selection (fun _ => Except.ok "serialized-event")
      { sampleHook with Method := "GET" } sampleEvent).2.2 rfl
      (by decide) (by decide) (by decide)

/-- C7: `doHook` normalizes the method to uppercase, defaults the empty
method to POST, and is therefore case-insensitive in the method. -/
theorem C7_method_normalization (env : DoHookEnv) (hook : WebHook)
    (evt : Event) :
    normalizeMethod "" = "POST" ∧
    (∀ m : String, toUpperAscii m ≠ "" → normalizeMethod m = toUpperAscii m) ∧
    (∀ m1 m2 : String, toUpperAscii m1 = toUpperAscii m2 →
        doHook env { hook with Method := m1 } evt =
          doHook env { hook with Method := m2 } evt) ∧
    doHook env { hook with Method := "post" } evt =
      doHook env { hook with Method := "POST" } evt := by
  refine ⟨rfl, ?_, ?_, ?_⟩
  · intro m hm
    simp [normalizeMethod, hm]
  · intro m1 m2 h
    simp [doHook, normalizeMethod, h]
  · have h : toUpperAscii "post" = toUpperAscii "POST" := by decide
    simp [doHook, normalizeMethod, h]

/-- Witness for C7 at concrete inputs: a non-empty method normalizes to
its uppercase form and two spellings of POST behave identically. -/
theorem C7_method_normalization_witness :
    normalizeMethod "get" = "GET" ∧
    doHook sampleEnv { sampleHook with Method := "Post" } sampleEvent =
      doHook sampleEnv { sampleHook with Method := "pOsT" } sampleEvent := by
  constructor
  · exact (C7_method_normalization sampleEnv sampleHook sampleEvent).2.1
      "get" (by decide)

  · exact (C7_method_normalization sampleEnv sampleHook sampleEvent).2.2.1
      "Post" "pOsT" (by decide)

theorem doHookAfterNorm_eq_marshalError (env : DoHookEnv) (hook : WebHook)
    (evt : Event) (e : String)
    (hwb : webhookBody env.jsonMarshal hook evt = Except.error e) :
    doHookAfterNorm env hook evt =
      (some e, [Metric.total, Metric.error], none) := by
  simp [doHookAfterNorm, hwb]

theorem doHookAfterNorm_eq_reqError (env : DoHookEnv) (hook : WebHook)
    (evt : Event) (body : Option String) (headers : Header) (e : String)
    (hwb : webhookBody env.jsonMarshal hook evt = Except.ok (body, headers))
    (hnr : env.newRequestErr hook.Method hook.URL body = some e) :
    doHookAfterNorm env hook evt =
      (some e, [Metric.total, Metric.error], none) := by
  simp [doHookAfterNorm, hwb, hnr]

theorem doHookAfterNorm_eq_transportError (env : DoHookEnv) (hook : WebHook)
    (evt : Event) (body : Option String) (headers : Header) (e : String)
    (hwb : webhookBody env.jsonMarshal hook evt = Except.ok (body, headers))
    (hnr : env.newRequestErr hook.Method hook.URL body = none)
    (hdo : env.httpDo (buildRequest hook body headers) =
      HttpResult.transportError e) :
    doHookAfterNorm env hook evt =
      (some e, [Metric.latency, Metric.total, Metric.error],
        some (buildRequest hook body headers)) := by
  simp [doHookAfterNorm, hwb, hnr, hdo]

theorem doHookAfterNorm_eq_response (env : DoHookEnv) (hook : WebHook)
    (evt : Event) (body : Option String) (headers : Header)
    (rsp : HttpResponse)
    (hwb : webhookBody env.jsonMarshal hook evt = Except.ok (body, headers))
    (hnr : env.newRequestErr hook.Method hook.URL body = none)
    (hdo : env.httpDo (buildRequest hook body headers) =
      HttpResult.response rsp) :
    doHookAfterNorm env hook evt =
      (classifyResponse rsp,
        (if (classifyResponse rsp).isSome then
          [Metric.latency, Metric.total, Metric.error]
        else [Metric.latency, Metric.total]),
        some (buildRequest hook body headers)) := by
  cases hcl : classifyResponse rsp <;>
    simp [doHookAfterNorm, hwb, hnr, hdo, hcl]

theorem doHookAfterNorm_request (env : DoHookEnv) (hook : WebHook)
    (evt : Event) (req : Request)
    (h : (doHookAfterNorm env hook evt).2.2 = some req) :
    ∃ body headers,
      webhookBody env.jsonMarshal hook evt = Except.ok (body, headers) ∧
      env.newRequestErr hook.Method hook.URL body = none ∧
      req = buildRequest hook body headers ∧
      (doHookAfterNorm env hook evt).1 =
        (match env.httpDo req with
         | HttpResult.transportError e => some e
         | HttpResult.response rsp => classifyResponse rsp) := by
  cases hwb : webhookBody env.jsonMarshal hook evt with
  | error e =>
    rw [doHookAfterNorm_eq_marshalError env hook evt e hwb] at h
    simp at h
  | ok pr =>
    obtain ⟨body, headers⟩ := pr
    cases hnr : env.newRequestErr hook.Method hook.URL body with
    | some e =>
      rw [doHookAfterNorm_eq_reqError env hook evt body headers e hwb hnr] at h
      simp at h
    | none =>
      have hreq : req = buildRequest hook body headers := by
        cases hdo : env.httpDo (buildRequest hook body headers) with
        | transportError e =>
          rw [doHookAfterNorm_eq_transportError env hook evt body headers e
            hwb hnr hdo] at h
          simpa using h.symm
        | response rsp =>
          rw [doHookAfterNorm_eq_response env hook evt body headers rsp
            hwb hnr hdo] at h
          simpa using h.symm
      subst hreq
      refine ⟨body, headers, rfl, hnr, rfl, ?_⟩
      cases hdo : env.httpDo (buildRequest hook body headers) with
      | transportError e =>
        rw [doHookAfterNorm_eq_transportError env hook evt body headers e
          hwb hnr hdo]
      | response rsp =>
        rw [doHookAfterNorm_eq_response env hook evt body headers rsp
          hwb hnr hdo]

theorem doHookAfterNorm_metrics (env : DoHookEnv) (hook : WebHook)
    (evt : Event) :
    (doHookAfterNorm env hook evt).2.1.count Metric.total = 1 ∧
    (doHookAfterNorm env hook evt).2.1.count Metric.error =
      (if (doHookAfterNorm env hook evt).1.isSome then 1 else 0) ∧
    (doHookAfterNorm env hook evt).2.1.count Metric.latency =
      (if (doHookAfterNorm env hook evt).2.2.isSome then 1 else 0) := by
  cases hwb : webhookBody env.jsonMarshal hook evt with
  | error e =>
    rw [doHookAfterNorm_eq_marshalError env hook evt e hwb]
    exact ⟨rfl, rfl, rfl⟩
  | ok pr =>
    obtain ⟨body, headers⟩ := pr
    cases hnr : env.newRequestErr hook.Method hook.URL body with
    | some e =>
      rw [doHookAfterNorm_eq_reqError env hook evt body headers e hwb hnr]
      exact ⟨rfl, rfl, rfl⟩
    | none =>
      cases hdo : env.httpDo (buildRequest hook body headers) with
      | transportError e =>
        rw [doHookAfterNorm_eq_transportError env hook evt body headers e
          hwb hnr hdo]
        exact ⟨rfl, rfl, rfl⟩
      | response rsp =>
        rw [doHookAfterNorm_eq_response env hook evt body headers rsp
          hwb hnr hdo]
        cases hcl : classifyResponse rsp <;> exact ⟨rfl, rfl, rfl⟩

/-- C3: when `doHook` issued a request and received a response, its result
is the classification of that response: nil exactly for statuses in
[200,400), otherwise an error built from the status code and the response
body; in particular 199, 400 and 500 are failures while 200, 201 and 399
are successes. -/
theorem C3_status_classification (env : DoHookEnv) (hook : WebHook)
    (evt : Event) (req : Request) (rsp : HttpResponse) :
    ((doHook env hook evt).2.2 = some req →
        env.httpDo req = HttpResult.response rsp →
        (doHook env hook evt).1 = classifyResponse rsp) ∧
    (classifyResponse rsp = none ↔
        200 ≤ rsp.StatusCode ∧ rsp.StatusCode < 400) ∧
    (rsp.StatusCode < 200 ∨ 400 ≤ rsp.StatusCode →
        classifyResponse rsp =
          some ("invalid status code calling hook: "
            ++ toString rsp.StatusCode ++ ": " ++ rsp.Body)) ∧
    (∀ b : String,
        (classifyResponse { StatusCode := 199, Body := b }).isSome = true ∧
        (classifyResponse { StatusCode := 400, Body := b }).isSome = true ∧
        (classifyResponse { StatusCode := 500, Body := b }).isSome = true ∧
        classifyResponse { StatusCode := 200, Body := b } = none ∧
        classifyResponse { StatusCode := 201, Body := b } = none ∧
        classifyResponse { StatusCode := 399, Body := b } = none) := by
  refine ⟨?_, ?_, ?_, ?_⟩
  · intro hreq hdo
    obtain ⟨body, headers, hwb, hnr, hr, h1⟩ :=
      doHookAfterNorm_request env
        { hook with Method := normalizeMethod hook.Method } evt req hreq
    rw [show (doHook env hook evt).1 =
      (doHookAfterNorm env
        { hook with Method := normalizeMethod hook.Method } evt).1 from rfl,
      h1, hdo]
  · unfold classifyResponse
    split_ifs with h
    · simp
      omega
    · simp
      omega
  · intro h
    unfold classifyResponse
    rw [if_pos (show rsp.StatusCode < 200 ∨ rsp.StatusCode ≥ 400 by omega)]
  · intro b
    norm_num [classifyResponse]

/-- Witness for C3 at a concrete environment returning status 200: the
attempt is classified by `classifyResponse`, hence succeeds. -/
theorem C3_status_classification_witness :
    (doHook sampleEnv sampleHook sampleEvent).1 =
      classifyResponse { StatusCode := 200, Body := "ok" } :=
  (C3_status_classification sampleEnv sampleHook sampleEvent
      { Method := "POST", URL := "http://h1.example.com"
        Body := some "serialized-event"
        Headers := [("Content-Type", ["application/json"]),
          ("User-Agent", ["tsuru-webhook-client/1.0"])] }
      { StatusCode := 200, Body := "ok" }).1 (by decide) rfl

/-- C5 (amended): every `doHook` attempt increments the total counter
exactly once and the error counter exactly when an error is returned; a
latency observation is recorded exactly when the HTTP call was executed
(a request was issued), regardless of the outcome of that call — attempts
failing before the call record no latency. -/
theorem C5_metrics (env : DoHookEnv) (hook : WebHook) (evt : Event) :
    (doHook env hook evt).2.1.count Metric.total = 1 ∧
    (doHook env hook evt).2.1.count Metric.error =
      (if (doHook env hook evt).1.isSome then 1 else 0) ∧
    (doHook env hook evt).2.1.count Metric.latency =
      (if (doHook env hook evt).2.2.isSome then 1 else 0) :=
  doHookAfterNorm_metrics env
    { hook with Method := normalizeMethod hook.Method } evt

/-- C5 counterexample: an attempt that fails while building the body
(JSON marshalling error) returns an error yet records no latency
observation, refuting the claim that latency is recorded even on attempts
failing before the HTTP call. -/
theorem C5_counterexample :
    (doHook
        { jsonMarshal := fun _ => Except.error "json: unsupported type"
          newRequestErr := fun _ _ _ => none
          httpDo := fun _ =>
            HttpResult.response { StatusCode := 200, Body := "" } }
        sampleHook sampleEvent).1.isSome = true ∧
    (doHook
        { jsonMarshal := fun _ => Except.error "json: unsupported type"
          newRequestErr := fun _ _ _ => none
          httpDo := fun _ =>
            HttpResult.response { StatusCode := 200, Body := "" } }
        sampleHook sampleEvent).2.1.count Metric.latency = 0 := by
  decide

/-- C10: with a non-empty literal body, the issued request carries exactly
the configured hook headers — with a default `User-Agent` appended only
when none is configured — and no `Content-Type` is injected. -/
theorem C10_literal_body_headers (env : DoHookEnv) (hook : WebHook)
    (evt : Event) (req : Request) :
    hook.Body ≠ "" →
    (doHook env hook evt).2.2 = some req →
    req.Headers =
      (if headerGet hook.Headers "User-Agent" == "" then
        headerSet hook.Headers "User-Agent" defaultUserAgent
      else hook.Headers) ∧
    headerGet req.Headers "Content-Type" =
      headerGet hook.Headers "Content-Type" := by
  intro hb hreq
  obtain ⟨body, headers, hwb, hnr, hr, h1⟩ :=
    doHookAfterNorm_request env
      { hook with Method := normalizeMethod hook.Method } evt req hreq
  have hb2 : ({ hook with Method := normalizeMethod hook.Method } :
      WebHook).Body ≠ "" := hb
  unfold webhookBody at hwb
  rw [if_pos hb2] at hwb
  simp only [Except.ok.injEq, Prod.mk.injEq] at hwb
  obtain ⟨hbody, hhead⟩ := hwb
  subst hbody
  subst hhead
  subst hr
  constructor
  · by_cases hua : headerGet hook.Headers "User-Agent" == ""
    · simp [buildRequest, hua]
    · simp [buildRequest, hua]
  · by_cases hua : headerGet hook.Headers "User-Agent" == ""
    · simp [buildRequest, hua]
      exact headerGet_headerSet_of_ne hook.Headers "User-Agent"
        defaultUserAgent "Content-Type" (by decide)
    · simp [buildRequest, hua]

/-- Witness for C10 at a concrete hook with a literal body and a custom
header: the issued request holds the configured header plus the default
`User-Agent`, and no `Content-Type`. -/
theorem C10_literal_body_headers_witness :
    ({ Method := "GET", URL := "http://h2.example.com"
       Body := some "payload"
       Headers := [("X-Token", ["abc"]),
         ("User-Agent", ["tsuru-webhook-client/1.0"])] } : Request).Headers =
      (if headerGet sampleLiteralHook.Headers "User-Agent" == "" then
        headerSet sampleLiteralHook.Headers "User-Agent" defaultUserAgent
      else sampleLiteralHook.Headers) ∧
    headerGet
        ({ Method := "GET", URL := "http://h2.example.com"
           Body := some "payload"
           Headers := [("X-Token", ["abc"]),
             ("User-Agent", ["tsuru-webhook-client/1.0"])] } :
          Request).Headers "Content-Type" =
      headerGet sampleLiteralHook.Headers "Content-Type" :=
  C10_literal_body_headers sampleEnv sampleLiteralHook sampleEvent
    { Method := "GET", URL := "http://h2.example.com"
      Body := some "payload"
      Headers := [("X-Token", ["abc"]),
        ("User-Agent", ["tsuru-webhook-client/1.0"])] }
    (by decide) (by decide)

end Webhook
